import Mathlib

/-!
Shallow embedding of the transfer pipeline of PyWiiLoad (wiiload.py) and
proofs about its wire format, chunking, argument block, address handling,
payload resolution and error behaviour.

Modelling conventions:
* byte strings are `List Nat` (each element a byte value below 256 where it
  comes out of a packing function); character strings are `List Char`;
* `struct.pack` with an unsigned big-endian format of width `w` is modelled
  by `pack_be w`, returning `none` exactly when the integer does not fit the
  field (CPython raises `struct.error` there);
* each `conn.send(x)` is one `Ev.sent x` event on the socket trace; a
  blocking send is modelled as writing its whole argument;
* replies typed at an `input()` prompt are classified by `Answer` exactly as
  the source classifies them: `.lower()` in `["y", "yes"]`, in `["n", "no"]`,
  or anything else;
* the runtime is CPython 3: the source branches on
  `platform.python_version_tuple()` and the Python 2 branches are dead on a
  Python 3 runtime;
* a bare `exit()` raises `SystemExit(None)`, so the process status is 0; an
  uncaught exception terminates the process with status 1.
-/

namespace PyWiiLoad

/-- Protocol version constant, wiiload.py line 41. -/
def WIILOAD_VERSION_MAJOR : Nat := 0

/-- Protocol version constant, wiiload.py line 42. -/
def WIILOAD_VERSION_MINOR : Nat := 5

/-- Fixed chunk size, main line 226: chunk_size = 1024 * 128. -/
def chunk_size : Nat := 1024 * 128

/-- Fixed well-known port, main line 219: wii_ip = (ip_string[4:], 4299). -/
def wiiPort : Nat := 4299

/-- Big-endian base-256 digits of n, w bytes wide: the byte output of
struct.pack for an in-range unsigned big-endian integer. -/
def beBytes : Nat → Nat → List Nat
  | 0, _ => []
  | w + 1, n => beBytes w (n / 256) ++ [n % 256]

/-- Behaviour of struct.pack on an unsigned big-endian field w bytes wide:
none models the struct.error raised when the value does not fit the field. -/
def pack_be (w n : Nat) : Option (List Nat) :=
  if n < 256 ^ w then some (beBytes w n) else none

/-- Model of struct.pack("B", n), one unsigned byte. -/
def packB (n : Nat) : Option (List Nat) := pack_be 1 n

/-- Model of struct.pack(">H", n), big-endian two bytes unsigned. -/
def packH (n : Nat) : Option (List Nat) := pack_be 2 n

/-- Model of struct.pack(">L", n), big-endian four bytes unsigned. -/
def packL (n : Nat) : Option (List Nat) := pack_be 4 n

/-- Reads a big-endian byte string back as the integer it denotes. -/
def beDecode (l : List Nat) : Nat := l.foldl (fun acc b => acc * 256 + b) 0

/-- UTF-8 bytes of the magic marker "HAXX" sent at line 135. -/
def magicBytes : List Nat := [72, 65, 88, 88]

/-- Chunk plan of main lines 227-228:
chunks = [c_data[i:i + chunk_size] for i in range(0, len(c_data), chunk_size)].
range(0, n, s) has (n + s - 1) / s elements 0, s, 2*s, ... and the slice
c_data[i:i + chunk_size] is take chunk_size of drop i. -/
def mkChunks (c_data : List Nat) : List (List Nat) :=
  (List.range' 0 ((c_data.length + chunk_size - 1) / chunk_size) chunk_size).map
    (fun i => (c_data.drop i).take chunk_size)

theorem mkChunks_nil : mkChunks [] = [] := rfl

theorem range'_shift (n : Nat) : ∀ s c step : Nat,
    List.range' (s + c) n step = (List.range' s n step).map (fun x => x + c) := by
  induction n with
  | zero => intro s c step; rfl
  | succ n ih =>
    intro s c step
    rw [List.range'_succ, List.range'_succ, List.map_cons, ← ih (s + step) c step]
    have h : s + c + step = s + step + c := by omega
    rw [h]

theorem mkChunks_cons (d : List Nat) (h : d ≠ []) :
    mkChunks d = d.take chunk_size :: mkChunks (d.drop chunk_size) := by
  have hn : 1 ≤ d.length := List.length_pos.mpr h
  have hk : (d.length + chunk_size - 1) / chunk_size
      = ((d.drop chunk_size).length + chunk_size - 1) / chunk_size + 1 := by
    rw [List.length_drop]
    simp only [chunk_size]
    omega
  unfold mkChunks
  rw [hk, List.range'_succ, List.map_cons]
  congr 1
  rw [range'_shift, List.map_map]
  apply List.map_congr_left
  intro a _
  rw [Function.comp_apply, List.drop_drop, Nat.add_comm chunk_size a]

theorem mkChunks_ne_nil (d : List Nat) (h : d ≠ []) : mkChunks d ≠ [] := by
  rw [mkChunks_cons d h]
  exact List.cons_ne_nil _ _

theorem mkChunks_flatten (d : List Nat) : (mkChunks d).flatten = d := by
  by_cases h : d = []
  · subst h; rfl
  · rw [mkChunks_cons d h, List.flatten_cons, mkChunks_flatten (d.drop chunk_size),
      List.take_append_drop]
termination_by d.length
decreasing_by
  simp only [List.length_drop]
  have := List.length_pos.mpr h
  simp only [chunk_size]
  omega

theorem mkChunks_mem_length_le (d : List Nat) :
    ∀ c ∈ mkChunks d, c.length ≤ chunk_size := by
  by_cases h : d = []
  · subst h; intro c hc; rw [mkChunks_nil] at hc; cases hc
  · rw [mkChunks_cons d h]
    intro c hc
    rcases List.mem_cons.mp hc with rfl | hc
    · rw [List.length_take]; exact Nat.min_le_left _ _
    · exact mkChunks_mem_length_le (d.drop chunk_size) c hc
termination_by d.length
decreasing_by
  simp only [List.length_drop]
  have := List.length_pos.mpr h
  simp only [chunk_size]
  omega

theorem mkChunks_dropLast_length (d : List Nat) :
    ∀ c ∈ (mkChunks d).dropLast, c.length = chunk_size := by
  by_cases h : d = []
  · subst h; intro c hc; rw [mkChunks_nil] at hc; cases hc
  · rw [mkChunks_cons d h]
    by_cases h2 : d.drop chunk_size = []
    · rw [h2, mkChunks_nil]
      intro c hc
      cases hc
    · rw [List.dropLast_cons_of_ne_nil (mkChunks_ne_nil _ h2)]
      intro c hc
      rcases List.mem_cons.mp hc with rfl | hc
      · have hlen : chunk_size ≤ d.length := by
          by_contra hlt
          exact h2 (List.drop_eq_nil_of_le (by omega))
        rw [List.length_take]
        exact Nat.min_eq_left hlen
      · exact mkChunks_dropLast_length (d.drop chunk_size) c hc
termination_by d.length
decreasing_by
  simp only [List.length_drop]
  have := List.length_pos.mpr h
  simp only [chunk_size]
  omega

/-- Claim C3: the chunk planner cuts the compressed bytes into an ordered
finite sequence of slices whose concatenation is the input byte-for-byte,
every slice except possibly the last has exactly the maximum size of
128 KiB = 131072 bytes, no slice exceeds that size, and the empty input
yields zero chunks. -/
theorem claim_C3_chunk_plan (d : List Nat) :
    (mkChunks d).flatten = d ∧
    (∀ c ∈ (mkChunks d).dropLast, c.length = chunk_size) ∧
    (∀ c ∈ mkChunks d, c.length ≤ chunk_size) ∧
    mkChunks [] = [] ∧
    chunk_size = 131072 :=
  ⟨mkChunks_flatten d, mkChunks_dropLast_length d, mkChunks_mem_length_le d,
    mkChunks_nil, rfl⟩

/-- Concrete instance of claim C3 on the inputs [7, 8, 9] and []. -/
theorem claim_C3_chunk_plan_witness :
    (mkChunks [7, 8, 9]).flatten = [7, 8, 9] ∧
    ([7, 8, 9] : List Nat).length ≤ chunk_size ∧
    mkChunks [] = [] :=
  ⟨(claim_C3_chunk_plan [7, 8, 9]).1,
    (claim_C3_chunk_plan [7, 8, 9]).2.2.1 [7, 8, 9] (by decide),
    (claim_C3_chunk_plan []).2.2.2.1⟩

/-- NUL-joining from main line 231: "\x00".join(args) written as list
recursion, with the byte 0 as the separator. -/
def nulJoin : List (List Nat) → List Nat
  | [] => []
  | [a] => a
  | a :: b :: rest => a ++ [0] ++ nulJoin (b :: rest)

/-- The argument block of main lines 230-231:
args = [os.path.basename(file)] + sys.argv[2:]; args = "\x00".join(args) + "\x00".
Characters are modelled as their byte values. -/
def mkArgs (base : List Nat) (extra : List (List Nat)) : List Nat :=
  nulJoin (base :: extra) ++ [0]

theorem intercalate_cons_cons (sep a b : List Nat) (l : List (List Nat)) :
    List.intercalate sep (a :: b :: l) = a ++ sep ++ List.intercalate sep (b :: l) := by
  simp [List.intercalate, List.intersperse_cons_cons, List.flatten_cons, List.append_assoc]

theorem mkArgs_eq_intercalate (base : List Nat) (extra : List (List Nat)) :
    mkArgs base extra = List.intercalate [0] (base :: (extra ++ [[]])) := by
  induction extra generalizing base with
  | nil => simp [mkArgs, nulJoin, List.intercalate, List.intersperse]
  | cons e es ih =>
    have h := ih e
    simp only [mkArgs, nulJoin] at h ⊢
    simp only [List.cons_append]
    rw [intercalate_cons_cons, ← h, List.append_assoc]

/-- Claim C4: when neither the base name nor any caller argument contains a
NUL byte, splitting the emitted argument block on NUL gives back exactly the
base name, then each extra argument in caller order, then one trailing empty
element; in particular the base name is the first element. -/
theorem claim_C4_argblock_roundtrip (base : List Nat) (extra : List (List Nat))
    (hbase : (0 : Nat) ∉ base) (hextra : ∀ a ∈ extra, (0 : Nat) ∉ a) :
    (mkArgs base extra).splitOn 0 = base :: (extra ++ [[]]) := by
  rw [mkArgs_eq_intercalate]
  refine List.splitOn_intercalate _ 0 ?_ (List.cons_ne_nil _ _)
  intro l hl
  simp only [List.mem_cons, List.mem_append, List.mem_singleton, List.not_mem_nil,
    or_false] at hl
  rcases hl with rfl | hl | rfl
  · exact hbase
  · exact hextra l hl
  · exact List.not_mem_nil _

/-- Concrete instance of claim C4: base name "a" (byte 97) with the two extra
arguments "b" and "c". -/
theorem claim_C4_argblock_roundtrip_witness :
    ((0 : Nat) ∉ ([97] : List Nat)) ∧
    (mkArgs [97] [[98], [99]]).splitOn 0 = [97] :: ([[98], [99]] ++ [[]]) :=
  ⟨by decide, claim_C4_argblock_roundtrip [97] [[98], [99]] (by decide) (by decide)⟩

/-- Observable socket operations of one run: the single conn.connect call, each
conn.send(x) with the bytes it writes, and conn.close. -/
inductive Ev
  | connAttempt
  | sent (b : List Nat)
  | closed
deriving DecidableEq

/-- How the transfer phase ends: completed; the caught socket.error branch of
connect lines 124-131 carrying the underlying transport error; or an uncaught
struct.error from one of the struct.pack calls. -/
inductive TR
  | ok
  | connFailed (e : Nat)
  | packFailed
deriving DecidableEq

/-- Events of connect(ip_string, wii_ip, args, c_data, file), lines 118-145:
one conn.connect attempt; on socket.error the handler prints the error and
calls exit(). Otherwise "HAXX" is sent followed by the five struct.pack
results; a failing pack leaves the earlier sends already performed. -/
def connectEvents (connErr : Option Nat) (argsLen cLen oLen : Nat) : List Ev × TR :=
  match connErr with
  | some e => ([Ev.connAttempt], TR.connFailed e)
  | none =>
    match packB WIILOAD_VERSION_MAJOR with
    | none => ([Ev.connAttempt, Ev.sent magicBytes], TR.packFailed)
    | some ma =>
      match packB WIILOAD_VERSION_MINOR with
      | none => ([Ev.connAttempt, Ev.sent magicBytes, Ev.sent ma], TR.packFailed)
      | some mi =>
        match packH argsLen with
        | none => ([Ev.connAttempt, Ev.sent magicBytes, Ev.sent ma, Ev.sent mi],
            TR.packFailed)
        | some ha =>
          match packL cLen with
          | none => ([Ev.connAttempt, Ev.sent magicBytes, Ev.sent ma, Ev.sent mi,
              Ev.sent ha], TR.packFailed)
          | some hc =>
            match packL oLen with
            | none => ([Ev.connAttempt, Ev.sent magicBytes, Ev.sent ma, Ev.sent mi,
                Ev.sent ha, Ev.sent hc], TR.packFailed)
            | some ho =>
              ([Ev.connAttempt, Ev.sent magicBytes, Ev.sent ma, Ev.sent mi,
                Ev.sent ha, Ev.sent hc, Ev.sent ho], TR.ok)

/-- Events of send(chunks, conn, args), lines 148-167: each chunk in sequence
order, then the argument block, then conn.close(). -/
def sendEvents (chunks : List (List Nat)) (args : List Nat) : List Ev :=
  chunks.map Ev.sent ++ [Ev.sent args, Ev.closed]

/-- The transfer part of main, lines 222-235, with the payload file already
resolved: c_data = zlib.compress(file bytes) for an abstract compressor,
chunks and the argument block as above, then connect and send. The original
length field uses os.path.getsize(file), the resolved file's byte count. -/
def runMain (compress : List Nat → List Nat) (fileBytes base : List Nat)
    (extra : List (List Nat)) (connErr : Option Nat) : List Ev × TR :=
  let c_data := compress fileBytes
  let chunks := mkChunks c_data
  let args := mkArgs base extra
  match connectEvents connErr args.length c_data.length fileBytes.length with
  | (evs, TR.ok) => (evs ++ sendEvents chunks args, TR.ok)
  | (evs, TR.connFailed e) => (evs, TR.connFailed e)
  | (evs, TR.packFailed) => (evs, TR.packFailed)

/-- All bytes written to the socket, in order, by a trace of events. -/
def sentBytes : List Ev → List Nat
  | [] => []
  | Ev.sent b :: rest => b ++ sentBytes rest
  | Ev.connAttempt :: rest => sentBytes rest
  | Ev.closed :: rest => sentBytes rest

theorem sentBytes_append (xs ys : List Ev) :
    sentBytes (xs ++ ys) = sentBytes xs ++ sentBytes ys := by
  induction xs with
  | nil => rfl
  | cons e rest ih => cases e <;> simp [sentBytes, ih]

theorem sentBytes_map_sent (ls : List (List Nat)) :
    sentBytes (ls.map Ev.sent) = ls.flatten := by
  induction ls with
  | nil => rfl
  | cons b rest ih => simp [sentBytes, ih]

theorem beBytes_length (w : Nat) : ∀ n, (beBytes w n).length = w := by
  induction w with
  | zero => intro n; rfl
  | succ w ih => intro n; simp [beBytes, ih]

theorem beDecode_beBytes (w : Nat) : ∀ n, n < 256 ^ w → beDecode (beBytes w n) = n := by
  induction w with
  | zero =>
    intro n h
    have hn : n = 0 := by simpa using Nat.lt_one_iff.mp (by simpa using h)
    subst hn; rfl
  | succ w ih =>
    intro n h
    have hdiv : n / 256 < 256 ^ w := by
      rw [Nat.div_lt_iff_lt_mul (by norm_num)]
      rw [pow_succ] at h
      exact h
    simp only [beBytes, beDecode, List.foldl_append, List.foldl_cons, List.foldl_nil]
    have hh := ih (n / 256) hdiv
    simp only [beDecode] at hh
    rw [hh]
    omega

theorem packH_in_range (n : Nat) (h : n < 2 ^ 16) : packH n = some (beBytes 2 n) := by
  have h2 : n < 256 ^ 2 := by rw [show (256 : Nat) ^ 2 = 2 ^ 16 by norm_num]; exact h
  rw [packH, pack_be, if_pos h2]

theorem packL_in_range (n : Nat) (h : n < 2 ^ 32) : packL n = some (beBytes 4 n) := by
  have h2 : n < 256 ^ 4 := by rw [show (256 : Nat) ^ 4 = 2 ^ 32 by norm_num]; exact h
  rw [packL, pack_be, if_pos h2]

theorem pack_be_eq_none_iff (w n : Nat) : pack_be w n = none ↔ 256 ^ w ≤ n := by
  unfold pack_be
  split_ifs with h
  · exact iff_of_false (by simp) (Nat.not_le.mpr h)
  · exact iff_of_true rfl (Nat.le_of_not_lt h)

theorem packH_eq_none_iff (n : Nat) : packH n = none ↔ 2 ^ 16 ≤ n := by
  rw [packH, pack_be_eq_none_iff]
  norm_num

theorem packL_eq_none_iff (n : Nat) : packL n = none ↔ 2 ^ 32 ≤ n := by
  rw [packL, pack_be_eq_none_iff]
  norm_num

theorem packB_major : packB WIILOAD_VERSION_MAJOR = some [0] := rfl

theorem packB_minor : packB WIILOAD_VERSION_MINOR = some [5] := rfl

/-- Helper: the full byte stream of a successful transfer, as one equation. -/
theorem wireLayout (compress : List Nat → List Nat) (f base : List Nat)
    (extra : List (List Nat))
    (h1 : (mkArgs base extra).length < 2 ^ 16)
    (h2 : (compress f).length < 2 ^ 32)
    (h3 : f.length < 2 ^ 32) :
    (runMain compress f base extra none).2 = TR.ok ∧
    sentBytes (runMain compress f base extra none).1 =
      magicBytes ++ beBytes 1 WIILOAD_VERSION_MAJOR ++ beBytes 1 WIILOAD_VERSION_MINOR ++
        beBytes 2 (mkArgs base extra).length ++ beBytes 4 (compress f).length ++
        beBytes 4 f.length ++ (mkChunks (compress f)).flatten ++ mkArgs base extra := by
  have eB0 : packB WIILOAD_VERSION_MAJOR = some (beBytes 1 WIILOAD_VERSION_MAJOR) := rfl
  have eB5 : packB WIILOAD_VERSION_MINOR = some (beBytes 1 WIILOAD_VERSION_MINOR) := rfl
  have eH := packH_in_range _ h1
  have eC := packL_in_range _ h2
  have eO := packL_in_range _ h3
  constructor
  · simp only [runMain, connectEvents, eB0, eB5, eH, eC, eO]
  · simp only [runMain, connectEvents, eB0, eB5, eH, eC, eO, sendEvents]
    simp [sentBytes_append, sentBytes, sentBytes_map_sent, List.append_assoc]

/-- Claim C1: a transfer that reaches the sending phase writes to the socket,
in strict order with nothing in between: the 4-byte magic "HAXX", the version
bytes 0 and 5, the big-endian 2-byte argument-block length, the big-endian
4-byte compressed-payload length, the big-endian 4-byte original-payload
length, every chunk in sequence order, and the argument block. -/
theorem claim_C1_wire_order (compress : List Nat → List Nat) (f base : List Nat)
    (extra : List (List Nat))
    (h1 : (mkArgs base extra).length < 2 ^ 16)
    (h2 : (compress f).length < 2 ^ 32)
    (h3 : f.length < 2 ^ 32) :
    (runMain compress f base extra none).2 = TR.ok ∧
    sentBytes (runMain compress f base extra none).1 =
      magicBytes ++ beBytes 1 WIILOAD_VERSION_MAJOR ++ beBytes 1 WIILOAD_VERSION_MINOR ++
        beBytes 2 (mkArgs base extra).length ++ beBytes 4 (compress f).length ++
        beBytes 4 f.length ++ (mkChunks (compress f)).flatten ++ mkArgs base extra :=
  wireLayout compress f base extra h1 h2 h3

/-- Concrete instance of claim C1: the identity compressor on an empty payload
with base name "a" and no extra arguments. -/
theorem claim_C1_wire_order_witness :
    ((mkArgs [97] []).length < 2 ^ 16 ∧ (([] : List Nat)).length < 2 ^ 32) ∧
    ((runMain (fun x => x) [] [97] [] none).2 = TR.ok ∧
      sentBytes (runMain (fun x => x) [] [97] [] none).1 =
        magicBytes ++ beBytes 1 WIILOAD_VERSION_MAJOR ++ beBytes 1 WIILOAD_VERSION_MINOR ++
          beBytes 2 (mkArgs [97] []).length ++ beBytes 4 ((fun x => x) ([] : List Nat)).length ++
          beBytes 4 ([] : List Nat).length ++ (mkChunks ((fun x => x) ([] : List Nat))).flatten ++
          mkArgs [97] []) :=
  ⟨⟨by decide, by decide⟩,
    claim_C1_wire_order (fun x => x) [] [97] [] (by decide) (by decide) (by decide)⟩

/-- Claim C6: when the TCP connection attempt fails, the run ends with the
error branch carrying the underlying transport error, after exactly one
connection attempt, with zero bytes written to the socket and no retry. -/
theorem claim_C6_connect_failure (compress : List Nat → List Nat)
    (f base : List Nat) (extra : List (List Nat)) (e : Nat) :
    runMain compress f base extra (some e) = ([Ev.connAttempt], TR.connFailed e) ∧
    sentBytes (runMain compress f base extra (some e)).1 = [] :=
  ⟨rfl, rfl⟩

/-- The header packing of connect lines 138-143 as one pure construction: the
two version bytes and the three length fields; none models the uncaught
struct.error raised when a length overflows its fixed-width field. -/
def mkHeader (argsLen cLen oLen : Nat) : Option (List Nat) :=
  match packB WIILOAD_VERSION_MAJOR, packB WIILOAD_VERSION_MINOR,
      packH argsLen, packL cLen, packL oLen with
  | some ma, some mi, some ha, some hc, some ho => some (ma ++ mi ++ ha ++ hc ++ ho)
  | _, _, _, _, _ => none

/-- Claim C9: header construction fails exactly when the argument-block length
exceeds the 2-byte field or a payload length exceeds its 4-byte field, and for
all in-range lengths it succeeds with the packed fields: there is no other
fallible branch. -/
theorem claim_C9_header_limits (a c o : Nat) :
    (mkHeader a c o = none ↔ 2 ^ 16 ≤ a ∨ 2 ^ 32 ≤ c ∨ 2 ^ 32 ≤ o) ∧
    (a < 2 ^ 16 → c < 2 ^ 32 → o < 2 ^ 32 →
      mkHeader a c o = some (beBytes 1 WIILOAD_VERSION_MAJOR ++
        beBytes 1 WIILOAD_VERSION_MINOR ++ beBytes 2 a ++ beBytes 4 c ++ beBytes 4 o)) := by
  constructor
  · constructor
    · intro h
      by_contra hcon
      push_neg at hcon
      obtain ⟨ha1, hc1, ho1⟩ := hcon
      simp [mkHeader, packB_major, packB_minor, packH_in_range a ha1,
        packL_in_range c hc1, packL_in_range o ho1] at h
    · intro h
      rcases hA : packH a with _ | v1
      · simp [mkHeader, packB_major, packB_minor, hA]
      · rcases hC : packL c with _ | v2
        · simp [mkHeader, packB_major, packB_minor, hA, hC]
        · rcases hO : packL o with _ | v3
          · simp [mkHeader, packB_major, packB_minor, hA, hC, hO]
          · exfalso
            rcases h with h | h | h
            · rw [← packH_eq_none_iff] at h
              rw [h] at hA
              cases hA
            · rw [← packL_eq_none_iff] at h
              rw [h] at hC
              cases hC
            · rw [← packL_eq_none_iff] at h
              rw [h] at hO
              cases hO
  · intro ha hc ho
    have eH := packH_in_range a ha
    have eC := packL_in_range c hc
    have eO := packL_in_range o ho
    simp only [mkHeader, packB_major, packB_minor, eH, eC, eO]
    rfl

/-- Concrete instances of claim C9: in-range lengths succeed, an argument
block of 65536 bytes overflows the 2-byte field. -/
theorem claim_C9_header_limits_witness :
    mkHeader 8 3 5 = some (beBytes 1 WIILOAD_VERSION_MAJOR ++
      beBytes 1 WIILOAD_VERSION_MINOR ++ beBytes 2 8 ++ beBytes 4 3 ++ beBytes 4 5) ∧
    mkHeader 65536 3 5 = none :=
  ⟨(claim_C9_header_limits 8 3 5).2 (by decide) (by decide) (by decide),
    (claim_C9_header_limits 65536 3 5).1.mpr (by decide)⟩

/-- Byte values of the name "app.dol". -/
def appdolBytes : List Nat := [97, 112, 112, 46, 100, 111, 108]

/-- Claim C2: in the bytes a successful transfer writes, the 4-byte field at
offset 8 is the big-endian compressed-payload byte count and the 4-byte field
at offset 12 is the big-endian pre-compression byte count, each decoding back
to the exact count; and for base name "app.dol" with no extra arguments the
argument block is 8 bytes long, so the 2-byte field at offset 6 carries 8. -/
theorem claim_C2_header_length_fields (compress : List Nat → List Nat)
    (f base : List Nat) (extra : List (List Nat))
    (h1 : (mkArgs base extra).length < 2 ^ 16)
    (h2 : (compress f).length < 2 ^ 32)
    (h3 : f.length < 2 ^ 32) :
    ((sentBytes (runMain compress f base extra none).1).drop 8).take 4 =
        beBytes 4 (compress f).length ∧
    beDecode (((sentBytes (runMain compress f base extra none).1).drop 8).take 4) =
        (compress f).length ∧
    ((sentBytes (runMain compress f base extra none).1).drop 12).take 4 =
        beBytes 4 f.length ∧
    beDecode (((sentBytes (runMain compress f base extra none).1).drop 12).take 4) =
        f.length ∧
    ((sentBytes (runMain compress f base extra none).1).drop 6).take 2 =
        beBytes 2 (mkArgs base extra).length ∧
    (mkArgs appdolBytes []).length = 8 := by
  obtain ⟨-, hw⟩ := wireLayout compress f base extra h1 h2 h3
  have h2' : (compress f).length < 256 ^ 4 := by
    rw [show (256 : Nat) ^ 4 = 2 ^ 32 by norm_num]; exact h2
  have h3' : f.length < 256 ^ 4 := by
    rw [show (256 : Nat) ^ 4 = 2 ^ 32 by norm_num]; exact h3
  have s1 : sentBytes (runMain compress f base extra none).1 =
      (magicBytes ++ (beBytes 1 WIILOAD_VERSION_MAJOR ++ (beBytes 1 WIILOAD_VERSION_MINOR ++
        beBytes 2 (mkArgs base extra).length))) ++
      (beBytes 4 (compress f).length ++ (beBytes 4 f.length ++
        ((mkChunks (compress f)).flatten ++ mkArgs base extra))) := by
    rw [hw]; simp only [List.append_assoc]
  have s2 : sentBytes (runMain compress f base extra none).1 =
      (magicBytes ++ (beBytes 1 WIILOAD_VERSION_MAJOR ++ (beBytes 1 WIILOAD_VERSION_MINOR ++
        (beBytes 2 (mkArgs base extra).length ++ beBytes 4 (compress f).length)))) ++
      (beBytes 4 f.length ++ ((mkChunks (compress f)).flatten ++ mkArgs base extra)) := by
    rw [hw]; simp only [List.append_assoc]
  have s3 : sentBytes (runMain compress f base extra none).1 =
      (magicBytes ++ (beBytes 1 WIILOAD_VERSION_MAJOR ++ beBytes 1 WIILOAD_VERSION_MINOR)) ++
      (beBytes 2 (mkArgs base extra).length ++ (beBytes 4 (compress f).length ++
        (beBytes 4 f.length ++ ((mkChunks (compress f)).flatten ++ mkArgs base extra)))) := by
    rw [hw]; simp only [List.append_assoc]
  refine ⟨?_, ?_, ?_, ?_, ?_, by decide⟩
  · rw [s1, List.drop_left' (by simp [magicBytes, beBytes_length]),
      List.take_left' (beBytes_length 4 _)]
  · rw [s1, List.drop_left' (by simp [magicBytes, beBytes_length]),
      List.take_left' (beBytes_length 4 _), beDecode_beBytes 4 _ h2']
  · rw [s2, List.drop_left' (by simp [magicBytes, beBytes_length]),
      List.take_left' (beBytes_length 4 _)]
  · rw [s2, List.drop_left' (by simp [magicBytes, beBytes_length]),
      List.take_left' (beBytes_length 4 _), beDecode_beBytes 4 _ h3']
  · rw [s3, List.drop_left' (by simp [magicBytes, beBytes_length]),
      List.take_left' (beBytes_length 2 _)]

/-- Concrete instance of claim C2: identity compressor, payload [1, 2], base
name "a", no extra arguments. -/
theorem claim_C2_header_length_fields_witness :
    beDecode (((sentBytes (runMain (fun x => x) [1, 2] [97] [] none).1).drop 8).take 4) =
      ((fun x => x) ([1, 2] : List Nat)).length ∧
    beDecode (((sentBytes (runMain (fun x => x) [1, 2] [97] [] none).1).drop 12).take 4) =
      ([1, 2] : List Nat).length ∧
    (mkArgs appdolBytes []).length = 8 :=
  ⟨(claim_C2_header_length_fields (fun x => x) [1, 2] [97] []
      (by decide) (by decide) (by decide)).2.1,
    (claim_C2_header_length_fields (fun x => x) [1, 2] [97] []
      (by decide) (by decide) (by decide)).2.2.2.1,
    (claim_C2_header_length_fields (fun x => x) [1, 2] [97] []
      (by decide) (by decide) (by decide)).2.2.2.2.2⟩

/-- Classification of one reply typed at an input() prompt, exactly as the
source tests it: lower() in ["y", "yes"], lower() in ["n", "no"], or anything
else. -/
inductive Answer
  | yes
  | no
  | other
deriving DecidableEq

/-- The interactive loop of getIP lines 57-76 (Python 3 branch): each
iteration reads a y/n reply; "n"/"no" prints Goodbye and exits; any other
reply reads an address into ip, and the loop ends when the reply was
"y"/"yes". none models ending the run (exit or an uncaught EOFError when the
reply or address input is exhausted). -/
def ipLoop : List Answer → List (List Char) → Option (List Char)
  | [], _ => none
  | Answer.no :: _, _ => none
  | Answer.yes :: _, [] => none
  | Answer.yes :: _, a :: _ => some a
  | Answer.other :: _, [] => none
  | Answer.other :: rest, _ :: t => ipLoop rest t

/-- The four characters the source prepends to a $WII address at line 78. -/
def tcpTag : List Char := ['t', 'c', 'p', ':']

/-- getIP(), lines 47-80: a set $WII gives "tcp:" + value; otherwise a set
legacy $WIILOAD is returned verbatim with no marker added; otherwise the
interactive loop supplies the entered address verbatim with no marker
added. -/
def getIP (envWII envWIILOAD : Option (List Char)) (answers : List Answer)
    (addrs : List (List Char)) : Option (List Char) :=
  match envWII with
  | some v => some (tcpTag ++ v)
  | none =>
    match envWIILOAD with
    | some v => some v
    | none => ipLoop answers addrs

/-- main line 219: wii_ip = (ip_string[4:], 4299) — the first four characters
are removed unconditionally and the remainder paired with the fixed port. -/
def mkTarget (ip : List Char) : List Char × Nat := (ip.drop 4, wiiPort)

/-- main lines 216-235 with the payload file already resolved: resolve the
address with getIP, build the connection target, then run the transfer; none
when getIP already ended the run. -/
def pyRun (envWII envWIILOAD : Option (List Char)) (answers : List Answer)
    (addrs : List (List Char)) (compress : List Nat → List Nat)
    (fileBytes base : List Nat) (extra : List (List Nat)) (connErr : Option Nat) :
    Option ((List Char × Nat) × List Ev × TR) :=
  match getIP envWII envWIILOAD answers addrs with
  | none => none
  | some ip => some (mkTarget ip, runMain compress fileBytes base extra connErr)

/-- Whether a run reached a conn.connect call. -/
def attemptsConnection (r : Option ((List Char × Nat) × List Ev × TR)) : Bool :=
  match r with
  | some (_, evs, _) => evs.contains Ev.connAttempt
  | none => false

/-- An address without the "tcp:" marker, as a user would type it at the
interactive prompt: "192.168.1.123". -/
def bareAddr : List Char := ['1', '9', '2', '.', '1', '6', '8', '.', '1', '.', '1', '2', '3']

/-- The host actually connected to for bareAddr: its first four characters
are dropped, leaving "168.1.123". -/
def mangledAddr : List Char := ['1', '6', '8', '.', '1', '.', '1', '2', '3']

/-- Counterexample to claim C5: the endpoint "192.168.1.123" carries no
"tcp:" marker, yet the resolver accepts it without any failure, a connection
is attempted, and the target host is the string with its first four
characters dropped, "168.1.123". -/
theorem claim_C5_counterexample :
    getIP none none [Answer.yes] [bareAddr] = some bareAddr ∧
    mkTarget bareAddr = (mangledAddr, 4299) ∧
    attemptsConnection
      (pyRun none none [Answer.yes] [bareAddr] (fun x => x) [] [] [] none) = true := by
  refine ⟨rfl, by decide, ?_⟩
  rfl

/-- Claim C5 as amended: the program performs no transport-marker validation
and has no failing configuration branch; every resolved endpoint string is
unconditionally paired as (string with its first four characters removed,
port 4299); when the string does carry the four-character "tcp:" marker this
yields exactly the marker-stripped remainder with the fixed well-known
port. -/
theorem claim_C5_amended (ip rest : List Char) :
    mkTarget ip = (ip.drop 4, wiiPort) ∧
    mkTarget (tcpTag ++ rest) = (rest, wiiPort) ∧
    wiiPort = 4299 := by
  refine ⟨rfl, ?_, rfl⟩
  rw [mkTarget, show (4 : Nat) = tcpTag.length from rfl, List.drop_left]

/-- Claim C10: the connection target is always (resolved string minus its
first four characters, port 4299); a $WII value v resolves to "tcp:" + v, so
the connection host is v verbatim, while an interactively entered address
gets no marker and is connected to with its first four characters dropped. -/
theorem claim_C10_host_derivation (v addr : List Char) (w : Option (List Char))
    (ans : List Answer) (addrs : List (List Char)) (rest : List (List Char)) :
    (∀ ip : List Char, mkTarget ip = (ip.drop 4, wiiPort)) ∧
    getIP (some v) w ans addrs = some (tcpTag ++ v) ∧
    mkTarget (tcpTag ++ v) = (v, wiiPort) ∧
    getIP none none (Answer.yes :: ans) (addr :: rest) = some addr ∧
    mkTarget addr = (addr.drop 4, wiiPort) := by
  refine ⟨fun ip => rfl, rfl, ?_, rfl, rfl⟩
  rw [mkTarget, show (4 : Nat) = tcpTag.length from rfl, List.drop_left]

/-- The two filesystem observations getFile makes: os.path.exists and
os.path.isdir. -/
structure FS where
  pathExists : List Char → Bool
  isDir : List Char → Bool

/-- os.path.splitext(p)[1] for POSIX paths: the suffix from the last dot of
the final path component, empty when that component has no dot or only
leading dots before it. -/
def extOf (p : List Char) : List Char :=
  let base := (p.reverse.takeWhile (fun c => c != '/')).reverse
  let r := base.reverse
  let afterRev := r.takeWhile (fun c => c != '.')
  let beforeRev := (r.dropWhile (fun c => c != '.')).tail
  if beforeRev.any (fun c => c != '.') then '.' :: afterRev.reverse else []

/-- The extensions accepted at line 110: .dol, .elf, .zip. -/
def supportedExts : List (List Char) :=
  [['.', 'd', 'o', 'l'], ['.', 'e', 'l', 'f'], ['.', 'z', 'i', 'p']]

/-- The archive path built by zip(path) at line 186:
file = path.rstrip("/") + ".zip". -/
def zipName (path : List Char) : List Char :=
  (path.reverse.dropWhile (fun c => c == '/')).reverse ++ ['.', 'z', 'i', 'p']

/-- Terminal outcomes of getFile: the print-and-exit branches for a missing
path, an unsupported extension and a declined directory prompt, the uncaught
EOFError when input() runs out of replies, and the uncaught FileNotFoundError
raised by os.chdir inside zip(). -/
inductive FileErr
  | notFound
  | unsupported
  | declined
  | eof
  | chdirFail
deriving DecidableEq

/-- Result of zip(path), lines 170-189, as its caller sees it. Line 174 takes
os.path.split(path), whose head is empty exactly when path contains no slash;
line 177 then runs os.chdir(head), and os.chdir("") raises FileNotFoundError,
crashing the run before any archive is made. For a slash-carrying path to an
existing directory the head is its existing parent (or "/"), the chdir
succeeds, the archive is created — a filesystem effect outside the model —
and line 186 returns path.rstrip("/") + ".zip". -/
def zipResult (path : List Char) : Except FileErr (List Char) :=
  if path.contains '/' then Except.ok (zipName path) else Except.error FileErr.chdirFail

/-- The zip_or_not prompt loop of getFile lines 94-106: every reply that is
not "n"/"no" runs file = zip(path), whose failure crashes the run on the
spot; a "y"/"yes" reply additionally ends the loop, so the zip result is
returned; "n"/"no" prints Goodbye and exits; exhausting the replies is an
uncaught EOFError. -/
def dirLoop (path : List Char) : List Answer → Except FileErr (List Char)
  | [] => Except.error FileErr.eof
  | Answer.no :: _ => Except.error FileErr.declined
  | Answer.yes :: _ => zipResult path
  | Answer.other :: rest =>
    match zipResult path with
    | Except.error e => Except.error e
    | Except.ok _ => dirLoop path rest

/-- getFile(path), lines 83-115: a missing path exits; a directory enters the
zip prompt loop; a file is returned unchanged when its extension is
supported, else the run exits. -/
def getFile (fs : FS) (answers : List Answer) (path : List Char) :
    Except FileErr (List Char) :=
  if fs.pathExists path = false then Except.error FileErr.notFound
  else if fs.isDir path then dirLoop path answers
  else if supportedExts.contains (extOf path) then Except.ok path
  else Except.error FileErr.unsupported

theorem zipResult_ok (path : List Char) :
    ∀ r, zipResult path = Except.ok r → r = zipName path := by
  intro r h
  rw [zipResult] at h
  split_ifs at h with hc
  simp only [Except.ok.injEq] at h
  exact h.symm

theorem dirLoop_ok (path : List Char) :
    ∀ answers r, dirLoop path answers = Except.ok r → r = zipName path := by
  intro answers
  induction answers with
  | nil => intro r h; cases h
  | cons a rest ih =>
    intro r h
    cases a with
    | yes => exact zipResult_ok path r h
    | no => cases h
    | other =>
      simp only [dirLoop] at h
      rcases hz : zipResult path with e | v
      · rw [hz] at h; cases h
      · rw [hz] at h
        exact ih r h

/-- The bare relative directory name "appdir", which has no slash. -/
def appdirName : List Char := ['a', 'p', 'p', 'd', 'i', 'r']

/-- The parented directory path "/tmp/appdir". -/
def appdirPath : List Char :=
  ['/', 't', 'm', 'p', '/', 'a', 'p', 'p', 'd', 'i', 'r']

/-- The file path "app.dol". -/
def dolName : List Char := ['a', 'p', 'p', '.', 'd', 'o', 'l']

/-- A filesystem with nothing at any path. -/
def fsMissing : FS := ⟨fun _ => false, fun _ => false⟩

/-- A filesystem where exactly "/tmp/appdir" exists and is a directory. -/
def fsDirOnly : FS := ⟨fun p => p == appdirPath, fun p => p == appdirPath⟩

/-- A filesystem where exactly "app.dol" exists, as a regular file. -/
def fsDolFile : FS := ⟨fun p => p == dolName, fun _ => false⟩

/-- Counterexample to claim C7: on the existing directory "/tmp/appdir", with
the user answering yes to the zip prompt, the resolver does not fail with an
UnsupportedArtifact error — zip() changes into the existing parent "/tmp",
builds the archive, and getFile returns the archive path "/tmp/appdir.zip". -/
theorem claim_C7_counterexample :
    getFile fsDirOnly [Answer.yes] appdirPath =
      Except.ok (appdirPath ++ ['.', 'z', 'i', 'p']) := rfl

/-- Claim C7 as amended: a missing path fails with NotFoundError; an existing
file with an unsupported extension fails with UnsupportedArtifact; an
existing file with a supported extension is returned unchanged (no kind value
accompanies it); an existing directory does not fail with UnsupportedArtifact
— after reporting that directories cannot be sent, the resolver prompts, ends
the run if the user declines (or input runs out), and otherwise invokes the
zip collaborator: for a slash-carrying path the collaborator returns the
archive path (path with trailing slashes stripped plus ".zip"), which getFile
returns instead of the original path, while for a bare relative name the
collaborator crashes the run with an uncaught FileNotFoundError from
os.chdir("") before returning. -/
theorem claim_C7_amended (fs : FS) (answers : List Answer) (path : List Char) :
    (fs.pathExists path = false → getFile fs answers path = Except.error FileErr.notFound) ∧
    (fs.pathExists path = true → fs.isDir path = false →
      supportedExts.contains (extOf path) = false →
      getFile fs answers path = Except.error FileErr.unsupported) ∧
    (fs.pathExists path = true → fs.isDir path = false →
      supportedExts.contains (extOf path) = true →
      getFile fs answers path = Except.ok path) ∧
    (fs.pathExists path = true → fs.isDir path = true →
      getFile fs answers path = dirLoop path answers) ∧
    (∀ r, dirLoop path answers = Except.ok r → r = zipName path) ∧
    (path.contains '/' = true →
      dirLoop path (Answer.yes :: answers) = Except.ok (zipName path)) ∧
    (path.contains '/' = false →
      dirLoop path (Answer.yes :: answers) = Except.error FileErr.chdirFail) := by
  refine ⟨?_, ?_, ?_, ?_, dirLoop_ok path answers, ?_, ?_⟩
  · intro h
    rw [getFile, if_pos h]
  · intro h1 h2 h3
    rw [getFile, if_neg (by simp [h1]), if_neg (by simp [h2]),
      if_neg (fun hx => by rw [h3] at hx; cases hx)]
  · intro h1 h2 h3
    rw [getFile, if_neg (by simp [h1]), if_neg (by simp [h2]), if_pos h3]
  · intro h1 h2
    rw [getFile, if_neg (by simp [h1]), if_pos h2]
  · intro hc
    simp only [dirLoop, zipResult]
    rw [if_pos hc]
  · intro hc
    simp only [dirLoop, zipResult]
    rw [if_neg (fun hx => by rw [hc] at hx; cases hx)]

/-- Concrete instances of the amended claim C7: a missing path, a supported
file, a declined directory, the archive path for the parented directory
"/tmp/appdir", and the zip crash for the bare name "appdir". -/
theorem claim_C7_amended_witness :
    getFile fsMissing [] dolName = Except.error FileErr.notFound ∧
    getFile fsDolFile [] dolName = Except.ok dolName ∧
    getFile fsDirOnly [Answer.no] appdirPath = Except.error FileErr.declined ∧
    dirLoop appdirPath [Answer.yes] = Except.ok (zipName appdirPath) ∧
    dirLoop appdirName [Answer.yes] = Except.error FileErr.chdirFail :=
  ⟨(claim_C7_amended fsMissing [] dolName).1 (by decide),
    (claim_C7_amended fsDolFile [] dolName).2.2.1 (by decide) (by decide) (by decide),
    by
      rw [(claim_C7_amended fsDirOnly [Answer.no] appdirPath).2.2.2.1
        (by decide) (by decide)]
      rfl,
    (claim_C7_amended fsDirOnly [] appdirPath).2.2.2.2.2.1 (by decide),
    (claim_C7_amended fsMissing [] appdirName).2.2.2.2.2.2 (by decide)⟩

/-- Process exit status of each terminal getFile outcome. The three
print-then-exit branches (lines 88-89, 103-104, 111-113) call the bare
exit(), which raises SystemExit(None) and terminates the process with
status 0; the uncaught EOFError terminates it with status 1. -/
def fileErrExitCode : FileErr → Nat
  | FileErr.notFound => 0
  | FileErr.unsupported => 0
  | FileErr.declined => 0
  | FileErr.eof => 1
  | FileErr.chdirFail => 1

/-- Whether the branch prints a human-readable message before the run ends
(the EOFError and FileNotFoundError paths print only an interpreter
traceback). -/
def fileErrHasMessage : FileErr → Bool
  | FileErr.notFound => true
  | FileErr.unsupported => true
  | FileErr.declined => true
  | FileErr.eof => false
  | FileErr.chdirFail => false

/-- Process exit status after the transfer phase: the caught socket.error
branch of connect lines 124-131 prints the error and calls the bare exit()
(status 0); an uncaught struct.error terminates with status 1; a completed
transfer yields none here (main goes on to its parting print). -/
def trExitCode : TR → Option Nat
  | TR.ok => none
  | TR.connFailed _ => some 0
  | TR.packFailed => some 1

/-- Counterexample to claim C8: the missing-path error is reported with a
message, but the process then exits with status 0 — the bare exit() raises
SystemExit(None) — not with a non-zero status as the claim requires. -/
theorem claim_C8_counterexample :
    getFile fsMissing [] dolName = Except.error FileErr.notFound ∧
    fileErrHasMessage FileErr.notFound = true ∧
    fileErrExitCode FileErr.notFound = 0 := ⟨rfl, rfl, rfl⟩

/-- Claim C8 as amended: every error is terminal for the run — no branch
retries (a failed connection alone ends the transfer after its single
attempt) — and the handled branches (missing path, unsupported extension,
declined directory prompt, connection failure) each print a human-readable
message but exit with status 0, while length-field overflow and exhausted
input surface as uncaught exceptions with status 1. -/
theorem claim_C8_error_propagation (compress : List Nat → List Nat)
    (f base : List Nat) (extra : List (List Nat)) (e : Nat) :
    runMain compress f base extra (some e) = ([Ev.connAttempt], TR.connFailed e) ∧
    trExitCode (TR.connFailed e) = some 0 ∧
    trExitCode TR.packFailed = some 1 ∧
    fileErrExitCode FileErr.notFound = 0 ∧
    fileErrExitCode FileErr.unsupported = 0 ∧
    fileErrExitCode FileErr.declined = 0 ∧
    fileErrExitCode FileErr.eof = 1 ∧
    fileErrHasMessage FileErr.notFound = true ∧
    fileErrHasMessage FileErr.unsupported = true ∧
    fileErrHasMessage FileErr.eof = false :=
  ⟨rfl, rfl, rfl, rfl, rfl, rfl, rfl, rfl, rfl, rfl⟩

end PyWiiLoad
